import Mathlib

/-!
Verification of the Upstox historical-candle harvester (`data_ingest.py`).

This file shallowly embeds the core of the harvester — the calendar-date
arithmetic used by the range planner, the candle merge/dedup function, the
per-timeframe backfill and forward-top-up drivers, the retrying fetch
client, and the request-pacing discipline — as executable Lean definitions,
and proves (or refutes) the specified properties about them.

Modelling conventions:
- Python `datetime.date` values become a `Date` structure of numeric fields;
  `dateutil.relativedelta(years=·, months=·)` becomes `RelDelta` with the
  same add-months-then-clamp-day application semantics, and
  `timedelta(days=1)` steps become explicit `addDay`/`subDay`.
- Candle timestamps are strings compared by code point, exactly as Python
  compares `str` values.
- Network effects are replaced by explicit oracles: a fetch attempt's HTTP
  outcome is a `Resp` value, and a driver run consumes a list of
  per-chunk fetch results (`Option (List Candle)`), `none` standing for a
  fetch whose retries were exhausted. An exhausted oracle list models the
  run being cut short and leaves the state untouched.
- Functions that in Python mutate `tf` dictionaries in place are written as
  state-passing functions on `TFState`.
-/

namespace Upstox

/-! ## Calendar dates (Python `datetime.date` and `relativedelta`) -/

/-- A calendar date, as Python's `datetime.date` (year, month 1-12, day 1-31). -/
structure Date where
  year : Nat
  month : Nat
  day : Nat
deriving DecidableEq, Repr

/-- Gregorian leap-year rule, as used by `datetime.date` arithmetic. -/
def isLeap (y : Nat) : Bool :=
  (y % 4 == 0 && y % 100 != 0) || y % 400 == 0

/-- Number of days in a month. -/
def daysInMonth (y m : Nat) : Nat :=
  if m == 2 then (if isLeap y then 29 else 28)
  else if m == 4 || m == 6 || m == 9 || m == 11 then 30
  else 31

/-- `d + timedelta(days=1)`. -/
def addDay (d : Date) : Date :=
  if d.day < daysInMonth d.year d.month then ⟨d.year, d.month, d.day + 1⟩
  else if d.month < 12 then ⟨d.year, d.month + 1, 1⟩
  else ⟨d.year + 1, 1, 1⟩

/-- `d - timedelta(days=1)`. -/
def subDay (d : Date) : Date :=
  if 1 < d.day then ⟨d.year, d.month, d.day - 1⟩
  else if 1 < d.month then ⟨d.year, d.month - 1, daysInMonth d.year (d.month - 1)⟩
  else ⟨d.year - 1, 12, 31⟩

/-- Date comparison `a <= b`, lexicographic on (year, month, day) —
Python's `date` ordering. -/
def Date.ble (a b : Date) : Bool :=
  a.year < b.year ||
    (a.year == b.year &&
      (a.month < b.month || (a.month == b.month && a.day ≤ b.day)))

/-- Date comparison `a < b`. -/
def Date.blt (a b : Date) : Bool := !(Date.ble b a)

/-- Python `min(a, b)` on dates. -/
def minDate (a b : Date) : Date := if Date.ble a b then a else b

/-- Python `max(a, b)` on dates. -/
def maxDate (a b : Date) : Date := if Date.ble b a then a else b

/-- A `dateutil.relativedelta` restricted to the year/month components the
harvester uses (`relativedelta(years=10)`, `relativedelta(months=3)`,
`relativedelta(months=1)`). -/
structure RelDelta where
  years : Nat
  months : Nat
deriving DecidableEq, Repr

/-- `d - delta` for a year/month `relativedelta`: shift the month count and
clamp the day to the target month's length, as `dateutil` does. -/
def subDelta (d : Date) (r : RelDelta) : Date :=
  let t := d.year * 12 + (d.month - 1) - (r.years * 12 + r.months)
  let y := t / 12
  let m := t % 12 + 1
  ⟨y, m, min d.day (daysInMonth y m)⟩

/-- `d + delta` for a year/month `relativedelta`, with the same day clamp. -/
def addDelta (d : Date) (r : RelDelta) : Date :=
  let t := d.year * 12 + (d.month - 1) + (r.years * 12 + r.months)
  let y := t / 12
  let m := t % 12 + 1
  ⟨y, m, min d.day (daysInMonth y m)⟩

/-- `parse_date_from_timestamp`: read the `YYYY-MM-DD` prefix of a
timestamp string; `none` models `date.fromisoformat` raising. -/
def parse_date_from_timestamp (ts : String) : Option Date :=
  let digit? := fun (c : Char) => if c.isDigit then some (c.toNat - 48) else none
  match ts.data.take 10 with
  | [y1, y2, y3, y4, '-', m1, m2, '-', d1, d2] =>
    match digit? y1, digit? y2, digit? y3, digit? y4,
          digit? m1, digit? m2, digit? d1, digit? d2 with
    | some a, some b, some c, some d, some e, some f, some g, some h =>
      some ⟨a * 1000 + b * 100 + c * 10 + d, e * 10 + f, g * 10 + h⟩
    | _, _, _, _, _, _, _, _ => none
  | _ => none

/-! ## Configuration constants (`data_ingest.py` lines 61-90) -/

def MAX_CONCURRENCY : Nat := 6

def REQUESTS_PER_SECOND : Nat := 4

def RETRY_COUNT : Nat := 3

/-- `UNIT_AVAILABILITY.get(unit, date(2000, 1, 1))`: earliest available date
per unit; the dictionary maps minutes/hours to 2022-01-01 and
days/weeks/months to 2000-01-01, which is also the `.get` default. -/
def UNIT_AVAILABILITY (unit : String) : Date :=
  if unit = "minutes" then ⟨2022, 1, 1⟩
  else if unit = "hours" then ⟨2022, 1, 1⟩
  else ⟨2000, 1, 1⟩

/-- Python `int(s)` on a plain digit string; `none` models `int` raising
on a non-numeric interval. -/
def pyInt (s : String) : Option Nat :=
  if s.data ≠ [] ∧ s.data.all Char.isDigit then
    some (s.data.foldl (fun n c => n * 10 + (c.toNat - 48)) 0)
  else none

/-- `get_chunk_delta`: `CHUNK_RULES.get(unit, lambda i: relativedelta(months=1))(interval)`.
For minutes the rule is 1 month when `int(interval) <= 15`, else 3 months.
(Non-numeric minute intervals raise in Python; here they read as 0.) -/
def get_chunk_delta (unit interval : String) : RelDelta :=
  if unit = "days" then ⟨10, 0⟩
  else if unit = "hours" then ⟨0, 3⟩
  else if unit = "minutes" then
    (if (pyInt interval).getD 0 ≤ 15 then ⟨0, 1⟩ else ⟨0, 3⟩)
  else if unit = "weeks" then ⟨10, 0⟩
  else if unit = "months" then ⟨10, 0⟩
  else ⟨0, 1⟩

/-! ## Candles and the merge engine -/

/-- One candle row `[ts, open, high, low, close, volume, oi]`: the merge
logic only ever inspects index 0 (the timestamp string), so the numeric
tail is kept as an opaque list. -/
structure Candle where
  ts : String
  vals : List Int
deriving DecidableEq, Repr

/-- Code-point lexicographic `<=` on character lists — how Python compares
the timestamp strings of two candles. -/
def strLeL : List Char → List Char → Bool
  | [], _ => true
  | _ :: _, [] => false
  | a :: as, b :: bs =>
    if a.toNat < b.toNat then true
    else if b.toNat < a.toNat then false
    else strLeL as bs

/-- Python string `<=` on timestamps. -/
def strLe (a b : String) : Bool := strLeL a.data b.data

/-- Sort key order used by `sorted(..., key=lambda x: x[0])`. -/
def tsle (a b : Candle) : Prop := strLe a.ts b.ts = true

instance : DecidableRel tsle :=
  fun a b => inferInstanceAs (Decidable (strLe a.ts b.ts = true))

/-- `sorted(l, key=lambda x: x[0])`: a stable sort by timestamp (Mathlib's
insertion sort with a non-strict relation is stable, like Python's sort). -/
def sortByTs (l : List Candle) : List Candle := List.insertionSort tsle l

/-- The `filtered` list of `dedup_and_merge` (line 258): incoming candles
whose timestamp is not already present in `existing`. -/
def filteredNew (existing new_list : List Candle) : List Candle :=
  new_list.filter fun c => decide (c.ts ∉ existing.map Candle.ts)

/-- `dedup_and_merge(existing, new_list, mode)` (lines 245-269): drop
incoming candles whose timestamp already occurs in `existing`, sort the
survivors, and append (forward) or prepend (backward) them. -/
def dedup_and_merge (existing new_list : List Candle) (mode : String) : List Candle :=
  if existing.isEmpty then
    sortByTs new_list
  else if (filteredNew existing new_list).isEmpty then existing
  else if mode = "forward" then existing ++ sortByTs (filteredNew existing new_list)
  else sortByTs (filteredNew existing new_list) ++ existing

/-! ## Timeframe state -/

/-- The per-(unit, interval) state dictionary created by `ensure_tf`. The
Python code stores `min_seen_date`/`max_seen_date`/`next_backfill_to_date`
as ISO strings or `None`; here they are `Option Date`. -/
structure TFState where
  min_seen_date : Option Date
  max_seen_date : Option Date
  next_backfill_to_date : Option Date
  done_backfill : Bool
  candles : List Candle
deriving DecidableEq, Repr

/-- The fresh state `ensure_tf` installs for an unseen timeframe key. -/
def freshTF : TFState :=
  { min_seen_date := none
    max_seen_date := none
    next_backfill_to_date := none
    done_backfill := false
    candles := [] }

/-- `update_tf_bounds` (lines 271-279): recompute the derived date bounds
from the first and last candle of the sequence. A timestamp whose prefix
is not a date yields `none` where Python would raise. -/
def update_tf_bounds (tf : TFState) : TFState :=
  match tf.candles.head?, tf.candles.getLast? with
  | some c0, some cn =>
    { tf with
        min_seen_date := parse_date_from_timestamp c0.ts
        max_seen_date := parse_date_from_timestamp cn.ts }
  | _, _ => { tf with min_seen_date := none, max_seen_date := none }

/-! ## Fetch client (`fetch_candles_chunk`, lines 296-324) -/

/-- Outcome of one HTTP attempt inside `fetch_candles_chunk`:
a 200 whose body parsed (with its candle list) or did not parse, a 4xx,
a 5xx, or a raised network error. -/
inductive Resp
  | ok (parseable : Bool) (candles : List Candle)
  | client (status : Nat)
  | server (status : Nat)
  | netError
deriving DecidableEq, Repr

/-- The attempt loop of `fetch_candles_chunk`, driven by the oracle list of
HTTP outcomes (one per attempt; a missing entry reads as a network error).
Returns the Python return value paired with the number of attempts made:
- 200 parseable: return the candle list;
- 200 unparseable: `return None` at once;
- 4xx: `return []` at once;
- 5xx or exception: sleep `RETRY_BACKOFF ** (attempt-1)` and try again;
- all `RETRY_COUNT` attempts spent: `return None`. -/
def fetchAttempts : Nat → List Resp → Option (List Candle) × Nat
  | 0, _ => (none, 0)
  | n + 1, rs =>
    match rs with
    | [] =>
      let (res, used) := fetchAttempts n []
      (res, used + 1)
    | r :: rest =>
      match r with
      | .ok true cs => (some cs, 1)
      | .ok false _ => (none, 1)
      | .client _ => (some [], 1)
      | .server _ =>
        let (res, used) := fetchAttempts n rest
        (res, used + 1)
      | .netError =>
        let (res, used) := fetchAttempts n rest
        (res, used + 1)

/-- `fetch_candles_chunk` for a fixed request, abstracted over the HTTP
outcomes of its attempts. -/
def fetch_candles_chunk (responses : List Resp) : Option (List Candle) × Nat :=
  fetchAttempts RETRY_COUNT responses

/-! ## Timeframe driver (`backfill_timeframe`, lines 330-373, and
`forward_fill_to_today`, lines 375-406) -/

/-- Result of one whole chunk fetch (after retries): `none` for retries
exhausted, `some []` for empty, `some cs` for data. -/
abbrev FetchResult : Type := Option (List Candle)

/-- The anchor `to_date_d` of the backfill (line 336):
`min(today, next_backfill_to_date)` when the cursor is set, else today. -/
def backfillTo (today : Date) (tf : TFState) : Date :=
  match tf.next_backfill_to_date with
  | some d => minDate today d
  | none => today

/-- The `from_date_d` planned for a backward chunk (lines 340-341):
`max(to_date - chunk_delta + timedelta(days=1), unit_start)`. -/
def planFrom (unit interval : String) (to_d : Date) : Date :=
  maxDate (addDay (subDelta to_d (get_chunk_delta unit interval))) (UNIT_AVAILABILITY unit)

/-- The `while True` backfill loop (lines 339-369), consuming one oracle
entry per chunk fetch; matching on the oracle first gives one equation per
fetch outcome, with the floor guard (lines 340-346) repeated in each arm
exactly as it is evaluated before the fetch. Returns the final state
together with the log of `(to_date, from_date)` ranges actually requested.
Persists (`atomic_write_json`) are state snapshots and add nothing to the
in-memory state, so they are not modelled. -/
def backfillLoop (unit interval : String) :
    List FetchResult → TFState → Date → TFState × List (Date × Date)
  | [], tf, to_d =>
    if Date.blt to_d (planFrom unit interval to_d) then
      ({ tf with done_backfill := true }, [])
    else (tf, [])
  | none :: _, tf, to_d =>
    if Date.blt to_d (planFrom unit interval to_d) then
      ({ tf with done_backfill := true }, [])
    else (tf, [(to_d, planFrom unit interval to_d)])
  | some [] :: _, tf, to_d =>
    if Date.blt to_d (planFrom unit interval to_d) then
      ({ tf with done_backfill := true }, [])
    else ({ tf with done_backfill := true }, [(to_d, planFrom unit interval to_d)])
  | some (c :: cs) :: rest, tf, to_d =>
    if Date.blt to_d (planFrom unit interval to_d) then
      ({ tf with done_backfill := true }, [])
    else
      let out := backfillLoop unit interval rest
        { update_tf_bounds
            { tf with candles := dedup_and_merge tf.candles (c :: cs) "backward" } with
          next_backfill_to_date := some (subDay (planFrom unit interval to_d)) }
        (subDay (planFrom unit interval to_d))
      (out.1, (to_d, planFrom unit interval to_d) :: out.2)

/-- `backfill_timeframe`: skip when `done_backfill`, otherwise run the
chunk loop from the persisted cursor (or today). -/
def backfill_timeframe (unit interval : String) (today : Date)
    (oracle : List FetchResult) (tf : TFState) : TFState × List (Date × Date) :=
  if tf.done_backfill then (tf, [])
  else backfillLoop unit interval oracle tf (backfillTo today tf)

/-- The `while cur_from <= end_target` loop of `forward_fill_to_today`
(lines 386-402). In the arms where the loop exits — guard false, chunk
fetch absent, or chunk empty — the state is returned unchanged, so those
arms collapse to `tf`; only a non-empty chunk does work. `cur_to` is
`min(end_target, cur_from + (chunk_delta - timedelta(days=1)))` (line 387). -/
def forwardLoop (unit interval : String) (endTarget : Date) :
    List FetchResult → TFState → Date → TFState
  | [], tf, _ => tf
  | none :: _, tf, _ => tf
  | some [] :: _, tf, _ => tf
  | some (c :: cs) :: rest, tf, cur_from =>
    if Date.ble cur_from endTarget then
      forwardLoop unit interval endTarget rest
        (update_tf_bounds { tf with candles := dedup_and_merge tf.candles (c :: cs) "forward" })
        (addDay (minDate endTarget (subDay (addDelta cur_from (get_chunk_delta unit interval)))))
    else tf

/-- `forward_fill_to_today`: anchored at `max_seen_date + 1 day`; returns
unchanged when no candles have been seen yet or the anchor is past today. -/
def forward_fill_to_today (unit interval : String) (today : Date)
    (oracle : List FetchResult) (tf : TFState) : TFState :=
  match tf.max_seen_date with
  | none => tf
  | some m =>
    let cur_from := addDay m
    if Date.blt today cur_from then tf
    else forwardLoop unit interval today oracle tf cur_from

/-! ## Request pacing (line 369 / 402 and `main`, lines 458-461) -/

/-- The pacing sleep `1.0 / max(REQUESTS_PER_SECOND, 1)` seconds, in
milliseconds. -/
def pacingMs : Nat := 1000 / max REQUESTS_PER_SECOND 1

/-- Request times (ms) of one timeframe loop of one instrument task: the
task issues a request, waits for the response (`durations` holds each
response time), then sleeps `pacingMs` before the next request. This is
the only pacing the code has — the sleep is local to the task; no state is
shared with other tasks. -/
def taskRequestTimes (start : Nat) : List Nat → List Nat
  | [] => []
  | d :: ds => start :: taskRequestTimes (start + d + pacingMs) ds

/-- The spec's process-wide rate-limit property: every two distinct
requests in a combined trace are at least `gap` ms apart. -/
def globalSpacing (gap : Nat) (times : List Nat) : Prop :=
  List.Pairwise (fun a b => gap ≤ a - b ∨ gap ≤ b - a) times

instance (gap : Nat) (times : List Nat) : Decidable (globalSpacing gap times) :=
  inferInstanceAs (Decidable (List.Pairwise _ _))

/-! ## Concrete values used by witnesses and counterexamples -/

/-- A daily candle dated 2024-01-01. -/
def candleJan1 : Candle := ⟨"2024-01-01T00:00:00+05:30", [10, 12, 9, 11, 100, 0]⟩

/-- A daily candle dated 2024-01-02. -/
def candleJan2 : Candle := ⟨"2024-01-02T00:00:00+05:30", [11, 13, 10, 12, 90, 0]⟩

/-- A timeframe state whose backfill has completed. -/
def tfDone : TFState := { freshTF with done_backfill := true }

/-! ## Order lemmas for the timestamp comparison -/

theorem strLeL_cons_iff (a b : Char) (as bs : List Char) :
    strLeL (a :: as) (b :: bs) = true ↔
      a.toNat < b.toNat ∨ (a.toNat = b.toNat ∧ strLeL as bs = true) := by
  simp only [strLeL]
  by_cases h1 : a.toNat < b.toNat
  · simp [h1]
  · by_cases h2 : b.toNat < a.toNat
    · have hne : ¬ a.toNat = b.toNat := by omega
      simp [h1, h2, hne]
    · have heq : a.toNat = b.toNat := by omega
      simp [h1, h2, heq]

theorem strLeL_total : ∀ as bs, strLeL as bs = true ∨ strLeL bs as = true
  | [], _ => Or.inl rfl
  | _ :: _, [] => Or.inr rfl
  | a :: as, b :: bs => by
    rcases Nat.lt_trichotomy a.toNat b.toNat with h | h | h
    · exact Or.inl ((strLeL_cons_iff a b as bs).mpr (Or.inl h))
    · rcases strLeL_total as bs with ih | ih
      · exact Or.inl ((strLeL_cons_iff a b as bs).mpr (Or.inr ⟨h, ih⟩))
      · exact Or.inr ((strLeL_cons_iff b a bs as).mpr (Or.inr ⟨h.symm, ih⟩))
    · exact Or.inr ((strLeL_cons_iff b a bs as).mpr (Or.inl h))

theorem strLeL_trans :
    ∀ as bs cs, strLeL as bs = true → strLeL bs cs = true → strLeL as cs = true
  | [], _, _, _, _ => rfl
  | _ :: _, [], _, h, _ => by simp [strLeL] at h
  | _ :: _, _ :: _, [], _, h => by simp [strLeL] at h
  | a :: as, b :: bs, c :: cs, h1, h2 => by
    rw [strLeL_cons_iff] at h1 h2 ⊢
    rcases h1 with h1 | ⟨h1e, h1r⟩
    · rcases h2 with h2 | ⟨h2e, h2r⟩
      · exact Or.inl (by omega)
      · exact Or.inl (by omega)
    · rcases h2 with h2 | ⟨h2e, h2r⟩
      · exact Or.inl (by omega)
      · exact Or.inr ⟨by omega, strLeL_trans as bs cs h1r h2r⟩

theorem sortByTs_perm (l : List Candle) : List.Perm (sortByTs l) l :=
  List.perm_insertionSort tsle l

theorem sortByTs_sorted (l : List Candle) : List.Sorted tsle (sortByTs l) := by
  haveI : IsTotal Candle tsle := ⟨fun a b => strLeL_total a.ts.data b.ts.data⟩
  haveI : IsTrans Candle tsle := ⟨fun a b c => strLeL_trans a.ts.data b.ts.data c.ts.data⟩
  exact List.sorted_insertionSort tsle l

theorem mem_sortByTs {c : Candle} {l : List Candle} : c ∈ sortByTs l ↔ c ∈ l :=
  List.mem_insertionSort tsle

/-! ## Merge-engine lemmas -/

theorem ts_mem_merge (A B : List Candle) (m : String) (b : Candle) (hb : b ∈ B) :
    b.ts ∈ (dedup_and_merge A B m).map Candle.ts := by
  unfold dedup_and_merge
  split_ifs with h1 h2 h3
  · exact List.mem_map_of_mem Candle.ts (mem_sortByTs.mpr hb)
  · have hall := List.filter_eq_nil_iff.mp (List.isEmpty_iff.mp h2)
    have := hall b hb
    rw [decide_eq_true_iff] at this
    exact Classical.byContradiction fun hn => this hn
  · rw [List.map_append, List.mem_append]
    by_cases hts : b.ts ∈ A.map Candle.ts
    · exact Or.inl hts
    · refine Or.inr (List.mem_map_of_mem Candle.ts (mem_sortByTs.mpr ?_))
      exact List.mem_filter.mpr ⟨hb, decide_eq_true hts⟩
  · rw [List.map_append, List.mem_append]
    by_cases hts : b.ts ∈ A.map Candle.ts
    · exact Or.inr hts
    · refine Or.inl (List.mem_map_of_mem Candle.ts (mem_sortByTs.mpr ?_))
      exact List.mem_filter.mpr ⟨hb, decide_eq_true hts⟩

theorem merge_ne_nil (A B : List Candle) (m : String) (hA : A ≠ []) :
    dedup_and_merge A B m ≠ [] := by
  unfold dedup_and_merge
  split_ifs with h1 h2 h3
  · exact absurd (List.isEmpty_iff.mp h1) hA
  · exact hA
  · intro h
    exact hA (List.append_eq_nil.mp h).1
  · intro h
    exact hA (List.append_eq_nil.mp h).2

theorem merge_of_filtered_nil (E B : List Candle) (m : String) (hE : E ≠ [])
    (hf : filteredNew E B = []) : dedup_and_merge E B m = E := by
  unfold dedup_and_merge
  split_ifs with h1 h2 h3
  · exact absurd (List.isEmpty_iff.mp h1) hE
  · rfl
  · rw [hf] at h2
    exact absurd rfl h2
  · rw [hf] at h2
    exact absurd rfl h2

/-- C7: an incoming candle whose timestamp is already present in `existing`
is discarded — every candle of the merge result carrying a timestamp that
occurs in `existing` is one of the `existing` candles, and all of
`existing` survives into the result. -/
theorem merge_existing_wins (e i : List Candle) (m : String) :
    (∀ c, c ∈ e → c ∈ dedup_and_merge e i m) ∧
    (∀ c, c ∈ dedup_and_merge e i m → c.ts ∈ e.map Candle.ts → c ∈ e) := by
  constructor
  · intro c hc
    unfold dedup_and_merge
    split_ifs with h1 h2 h3
    · rw [List.isEmpty_iff.mp h1] at hc
      cases hc
    · exact hc
    · exact List.mem_append_left _ hc
    · exact List.mem_append_right _ hc
  · intro c hc hts
    unfold dedup_and_merge at hc
    split_ifs at hc with h1 h2 h3
    · rw [List.isEmpty_iff.mp h1] at hts
      simp at hts
    · exact hc
    · rcases List.mem_append.mp hc with h | h
      · exact h
      · have hf := (List.mem_filter.mp (mem_sortByTs.mp h)).2
        exact absurd hts (of_decide_eq_true hf)
    · rcases List.mem_append.mp hc with h | h
      · have hf := (List.mem_filter.mp (mem_sortByTs.mp h)).2
        exact absurd hts (of_decide_eq_true hf)
      · exact h

/-- Witness for C7 at a concrete overlap: the merge of `[candleJan2]` with
an incoming list that re-states timestamp 2024-01-02 keeps the existing
candle. -/
theorem merge_existing_wins_witness :
    candleJan2 ∈ dedup_and_merge [candleJan2] [⟨candleJan2.ts, [99]⟩, candleJan1] "backward" :=
  (merge_existing_wins [candleJan2] [⟨candleJan2.ts, [99]⟩, candleJan1] "backward").1
    candleJan2 (by decide)

/-- C8: `merge(A, ∅) = A`; `merge(∅, B)` is `B` sorted ascending by
timestamp (a permutation of `B`, sorted under the timestamp order); and
merge is idempotent: merging the incoming list again changes nothing. -/
theorem merge_algebra (A B : List Candle) (m m2 : String) :
    dedup_and_merge A [] m = A ∧
    dedup_and_merge [] B m = sortByTs B ∧
    List.Perm (dedup_and_merge [] B m) B ∧
    List.Sorted tsle (dedup_and_merge [] B m) ∧
    dedup_and_merge (dedup_and_merge A B m) B m2 = dedup_and_merge A B m := by
  have hnilB : dedup_and_merge [] B m = sortByTs B := rfl
  refine ⟨?_, hnilB, hnilB ▸ sortByTs_perm B, hnilB ▸ sortByTs_sorted B, ?_⟩
  · unfold dedup_and_merge
    split_ifs with h1 h2 h3
    · exact (List.isEmpty_iff.mp h1).symm
    · rfl
    · exact absurd rfl h2
    · exact absurd rfl h2
  · by_cases hM : dedup_and_merge A B m = []
    · have hA : A = [] := by
        by_contra hA
        exact merge_ne_nil A B m hA hM
      subst hA
      have hB : B = [] := by
        have hp := sortByTs_perm B
        rw [show sortByTs B = dedup_and_merge [] B m from rfl, hM] at hp
        exact hp.symm.eq_nil
      subst hB
      rfl
    · refine merge_of_filtered_nil _ B m2 hM ?_
      refine List.filter_eq_nil_iff.mpr fun b hb => ?_
      rw [decide_eq_true_iff]
      intro hn
      exact hn (ts_mem_merge A B m b hb)

/-- C1 (code bug): `dedup_and_merge`'s own docstring promises a result
sorted ascending by timestamp and deduplicated by timestamp, but with the
"forward" hint and an incoming candle older than the existing data the
concatenation is never re-sorted, and duplicates inside the incoming list
itself are never collapsed. -/
theorem merge_not_sorted_on_wrong_hint :
    dedup_and_merge [candleJan2] [candleJan1] "forward" = [candleJan2, candleJan1] ∧
    ¬ List.Sorted tsle [candleJan2, candleJan1] ∧
    dedup_and_merge [] [candleJan1, candleJan1] "forward" = [candleJan1, candleJan1] ∧
    ¬ (List.map Candle.ts (dedup_and_merge [] [candleJan1, candleJan1] "forward")).Nodup :=
  ⟨by decide, by decide, by decide, by decide⟩

/-! ## Fetch-client retry behaviour -/

/-- C3 (refuted as stated): a 200 response with an unparseable body is
returned as absent after a single attempt, even though two further
attempts — which here would succeed — remain available. -/
theorem unparseable_body_not_retried :
    fetch_candles_chunk
        [Resp.ok false [], Resp.ok true [candleJan1], Resp.ok true [candleJan1]]
      = (none, 1) ∧
    (1 : Nat) ≠ RETRY_COUNT :=
  ⟨rfl, by decide⟩

/-- C3 (amended): the unparseable-200 branch of `fetch_candles_chunk`
returns absent immediately on the first such body; only 5xx responses and
network errors are retried, up to `RETRY_COUNT` attempts in total, after
which the result is absent; a 4xx returns an empty list at once. -/
theorem fetch_retry_classification (junk cs : List Candle) (rest : List Resp)
    (status : Nat) :
    fetch_candles_chunk (Resp.ok false junk :: rest) = (none, 1) ∧
    fetch_candles_chunk (Resp.ok true cs :: rest) = (some cs, 1) ∧
    fetch_candles_chunk (Resp.client status :: rest) = (some [], 1) ∧
    fetch_candles_chunk (Resp.server status :: Resp.ok true cs :: rest) = (some cs, 2) ∧
    fetch_candles_chunk (Resp.netError :: Resp.ok true cs :: rest) = (some cs, 2) ∧
    fetch_candles_chunk (Resp.server status :: Resp.netError :: Resp.server status :: rest)
      = (none, 3) :=
  ⟨rfl, rfl, rfl, rfl, rfl, rfl⟩

/-! ## Request pacing -/

theorem chain_taskRequestTimes :
    ∀ (durations : List Nat) (start : Nat),
      List.Chain' (fun a b => a + pacingMs ≤ b) (taskRequestTimes start durations)
  | [], _ => trivial
  | [d], start => by
    rw [taskRequestTimes, taskRequestTimes]
    exact List.chain'_singleton start
  | d :: d2 :: ds, start => by
    rw [taskRequestTimes, taskRequestTimes]
    rw [List.chain'_cons]
    constructor
    · omega
    · rw [show (start + d + pacingMs) :: taskRequestTimes (start + d + pacingMs + d2 + pacingMs) ds
            = taskRequestTimes (start + d + pacingMs) (d2 :: ds) from rfl]
      exact chain_taskRequestTimes (d2 :: ds) (start + d + pacingMs)

/-- C2 (refuted as stated): two instrument tasks, each obeying the only
pacing the code has — its own `await asyncio.sleep(1.0 / REQUESTS_PER_SECOND)`
after each chunk — can issue requests 100 ms apart, violating the claimed
process-wide minimum inter-request interval of `pacingMs` = 250 ms. -/
theorem pacing_not_global :
    List.Chain' (fun a b => a + pacingMs ≤ b) (taskRequestTimes 0 [0, 0]) ∧
    List.Chain' (fun a b => a + pacingMs ≤ b) (taskRequestTimes 100 [0]) ∧
    ¬ globalSpacing pacingMs (taskRequestTimes 0 [0, 0] ++ taskRequestTimes 100 [0]) :=
  ⟨chain_taskRequestTimes [0, 0] 0, chain_taskRequestTimes [0] 100, by decide⟩

/-- C2 (amended): the minimum inter-request interval is enforced per task
only — successive chunk requests of one timeframe loop are at least
`pacingMs` = 250 ms apart — while across tasks the only cap is the
concurrency semaphore of `MAX_CONCURRENCY` = 6 instruments in flight. -/
theorem pacing_per_task (start : Nat) (durations : List Nat) :
    List.Chain' (fun a b => a + pacingMs ≤ b) (taskRequestTimes start durations) ∧
    pacingMs = 250 ∧
    MAX_CONCURRENCY = 6 :=
  ⟨chain_taskRequestTimes durations start, rfl, rfl⟩

/-! ## Chunk widths -/

/-- C9 (refuted as stated): the 15-minute interval does not receive the
3-month width of the coarser-than-15 minute intervals — `int("15") <= 15`
holds, so it falls in the 1-month bucket. -/
theorem chunk_width_at_15 :
    get_chunk_delta "minutes" "15" = ⟨0, 1⟩ ∧
    get_chunk_delta "minutes" "15" ≠ ⟨0, 3⟩ :=
  ⟨rfl, by decide⟩

/-- C9 (amended): chunk widths are 10 years for days, weeks and months,
3 months for hours, 1 month for minute intervals of 15 minutes or finer,
and 3 months for minute intervals coarser than 15 minutes. -/
theorem chunk_width_rules (i : String) (n : Nat) (hi : pyInt i = some n) :
    get_chunk_delta "days" i = ⟨10, 0⟩ ∧
    get_chunk_delta "weeks" i = ⟨10, 0⟩ ∧
    get_chunk_delta "months" i = ⟨10, 0⟩ ∧
    get_chunk_delta "hours" i = ⟨0, 3⟩ ∧
    (n ≤ 15 → get_chunk_delta "minutes" i = ⟨0, 1⟩) ∧
    (15 < n → get_chunk_delta "minutes" i = ⟨0, 3⟩) := by
  refine ⟨rfl, rfl, rfl, rfl, ?_, ?_⟩
  · intro hn
    show (if (pyInt i).getD 0 ≤ 15 then (⟨0, 1⟩ : RelDelta) else ⟨0, 3⟩) = ⟨0, 1⟩
    rw [hi]
    simpa using hn
  · intro hn
    show (if (pyInt i).getD 0 ≤ 15 then (⟨0, 1⟩ : RelDelta) else ⟨0, 3⟩) = ⟨0, 3⟩
    rw [hi]
    simp only [Option.getD_some]
    rw [if_neg (by omega)]

/-- Witness for the amended C9 at the boundary interval "15" and at the
coarser interval "30". -/
theorem chunk_width_rules_witness :
    get_chunk_delta "minutes" "15" = ⟨0, 1⟩ ∧ get_chunk_delta "minutes" "30" = ⟨0, 3⟩ :=
  ⟨(chunk_width_rules "15" 15 (by decide)).2.2.2.2.1 (by decide),
   (chunk_width_rules "30" 30 (by decide)).2.2.2.2.2 (by decide)⟩

/-! ## Backfill planner and driver -/

theorem Date.ble_refl (d : Date) : Date.ble d d = true := by
  simp [Date.ble]

theorem floor_le_planFrom (unit interval : String) (to_d : Date) :
    Date.ble (UNIT_AVAILABILITY unit) (planFrom unit interval to_d) = true := by
  unfold planFrom maxDate
  split_ifs with h
  · exact h
  · exact Date.ble_refl _

theorem backfillLoop_log (unit interval : String) :
    ∀ (oracle : List FetchResult) (tf : TFState) (to_d : Date) (p : Date × Date),
      p ∈ (backfillLoop unit interval oracle tf to_d).2 →
      p.2 = planFrom unit interval p.1
  | [], tf, to_d, p => by
    rw [backfillLoop]
    split_ifs <;> simp
  | none :: rest, tf, to_d, p => by
    rw [backfillLoop]
    split_ifs
    · simp
    · intro hp
      rw [List.mem_singleton] at hp
      rw [hp]
  | some [] :: rest, tf, to_d, p => by
    rw [backfillLoop]
    split_ifs
    · simp
    · intro hp
      rw [List.mem_singleton] at hp
      rw [hp]
  | some (c :: cs) :: rest, tf, to_d, p => by
    rw [backfillLoop]
    split_ifs
    · simp
    · intro hp
      rcases List.mem_cons.mp hp with h | h
      · rw [h]
      · exact backfillLoop_log unit interval rest _ _ p h

/-- C5: every chunk the backfill driver requests has
`from_date = max(to_date - width + 1 day, floor)`, the floor being
2022-01-01 for minutes and hours and 2000-01-01 for days, weeks and
months, so no requested range starts before the unit's floor. -/
theorem backfill_chunk_plan (unit interval : String) (today : Date)
    (oracle : List FetchResult) (tf : TFState) (p : Date × Date)
    (hp : p ∈ (backfill_timeframe unit interval today oracle tf).2) :
    p.2 = planFrom unit interval p.1 ∧
    Date.ble (UNIT_AVAILABILITY unit) p.2 = true ∧
    UNIT_AVAILABILITY "minutes" = ⟨2022, 1, 1⟩ ∧
    UNIT_AVAILABILITY "hours" = ⟨2022, 1, 1⟩ ∧
    UNIT_AVAILABILITY "days" = ⟨2000, 1, 1⟩ ∧
    UNIT_AVAILABILITY "weeks" = ⟨2000, 1, 1⟩ ∧
    UNIT_AVAILABILITY "months" = ⟨2000, 1, 1⟩ := by
  have hplan : p.2 = planFrom unit interval p.1 := by
    unfold backfill_timeframe at hp
    split_ifs at hp
    · simp at hp
    · exact backfillLoop_log unit interval oracle tf (backfillTo today tf) p hp
  exact ⟨hplan, hplan ▸ floor_le_planFrom unit interval p.1, rfl, rfl, rfl, rfl, rfl⟩

/-- Witness for C5: the first daily chunk planned from 2024-01-10 with no
cursor requests the range 2014-01-11 .. 2024-01-10, and that range obeys
the planning formula and the floor. -/
theorem backfill_chunk_plan_witness :
    (⟨2014, 1, 11⟩ : Date) = planFrom "days" "1" ⟨2024, 1, 10⟩ ∧
    Date.ble (UNIT_AVAILABILITY "days") ⟨2014, 1, 11⟩ = true ∧
    UNIT_AVAILABILITY "minutes" = ⟨2022, 1, 1⟩ ∧
    UNIT_AVAILABILITY "hours" = ⟨2022, 1, 1⟩ ∧
    UNIT_AVAILABILITY "days" = ⟨2000, 1, 1⟩ ∧
    UNIT_AVAILABILITY "weeks" = ⟨2000, 1, 1⟩ ∧
    UNIT_AVAILABILITY "months" = ⟨2000, 1, 1⟩ :=
  backfill_chunk_plan "days" "1" ⟨2024, 1, 10⟩ [none] freshTF
    (⟨2024, 1, 10⟩, ⟨2014, 1, 11⟩) (by decide)

/-- C4: when the chunk fetch comes back absent (retries exhausted), the
backfill run stops returning the state exactly as it was before that chunk
— in particular `next_backfill_to_date` and `done_backfill` are untouched —
and a fresh run from that same state plans and requests the identical
chunk again. -/
theorem backfill_stops_unchanged_on_absent (unit interval : String) (today : Date)
    (tf : TFState) (rest rest2 : List FetchResult)
    (h1 : tf.done_backfill = false)
    (h2 : Date.ble (planFrom unit interval (backfillTo today tf)) (backfillTo today tf) = true) :
    backfill_timeframe unit interval today (none :: rest) tf
      = (tf, [(backfillTo today tf, planFrom unit interval (backfillTo today tf))]) ∧
    backfill_timeframe unit interval today (none :: rest2)
        (backfill_timeframe unit interval today (none :: rest) tf).1
      = (tf, [(backfillTo today tf, planFrom unit interval (backfillTo today tf))]) := by
  have hblt : Date.blt (backfillTo today tf) (planFrom unit interval (backfillTo today tf))
      = false := by
    unfold Date.blt
    rw [h2]
    rfl
  have key : ∀ r : List FetchResult,
      backfill_timeframe unit interval today (none :: r) tf
        = (tf, [(backfillTo today tf, planFrom unit interval (backfillTo today tf))]) := by
    intro r
    unfold backfill_timeframe
    rw [h1]
    rw [if_neg (by simp)]
    rw [backfillLoop]
    rw [if_neg (by rw [hblt]; simp)]
  refine ⟨key rest, ?_⟩
  rw [key rest]
  exact key rest2

/-- Witness for C4: with no cursor and today = 2024-01-10, a failed daily
chunk leaves the fresh state untouched and the rerun requests
2014-01-11 .. 2024-01-10 again. -/
theorem backfill_stops_unchanged_on_absent_witness :
    backfill_timeframe "days" "1" ⟨2024, 1, 10⟩ [none] freshTF
      = (freshTF, [(backfillTo ⟨2024, 1, 10⟩ freshTF,
          planFrom "days" "1" (backfillTo ⟨2024, 1, 10⟩ freshTF))]) ∧
    backfill_timeframe "days" "1" ⟨2024, 1, 10⟩ [none]
        (backfill_timeframe "days" "1" ⟨2024, 1, 10⟩ [none] freshTF).1
      = (freshTF, [(backfillTo ⟨2024, 1, 10⟩ freshTF,
          planFrom "days" "1" (backfillTo ⟨2024, 1, 10⟩ freshTF))]) :=
  backfill_stops_unchanged_on_absent "days" "1" ⟨2024, 1, 10⟩ freshTF [] [] rfl (by decide)

/-! ## Frame lemmas for the forward top-up -/

theorem update_tf_bounds_frame (tf : TFState) :
    (update_tf_bounds tf).next_backfill_to_date = tf.next_backfill_to_date ∧
    (update_tf_bounds tf).done_backfill = tf.done_backfill ∧
    (update_tf_bounds tf).candles = tf.candles := by
  unfold update_tf_bounds
  cases tf.candles.head? <;> cases tf.candles.getLast? <;> simp

theorem forwardLoop_frame (unit interval : String) (endTarget : Date) :
    ∀ (oracle : List FetchResult) (tf : TFState) (cur : Date),
      (forwardLoop unit interval endTarget oracle tf cur).next_backfill_to_date
          = tf.next_backfill_to_date ∧
      (forwardLoop unit interval endTarget oracle tf cur).done_backfill
          = tf.done_backfill
  | [], tf, cur => ⟨rfl, rfl⟩
  | none :: rest, tf, cur => ⟨rfl, rfl⟩
  | some [] :: rest, tf, cur => ⟨rfl, rfl⟩
  | some (c :: cs) :: rest, tf, cur => by
    rw [forwardLoop]
    split_ifs
    · have ih := forwardLoop_frame unit interval endTarget rest
        (update_tf_bounds { tf with candles := dedup_and_merge tf.candles (c :: cs) "forward" })
        (addDay (minDate endTarget (subDay (addDelta cur (get_chunk_delta unit interval)))))
      have hb := update_tf_bounds_frame
        { tf with candles := dedup_and_merge tf.candles (c :: cs) "forward" }
      exact ⟨ih.1.trans hb.1, ih.2.trans hb.2.1⟩
    · exact ⟨rfl, rfl⟩

/-- C10: a forward top-up run never changes the backfill cursor
`next_backfill_to_date` or the completion flag `done_backfill`, whatever
today's date and whatever the fetches return. -/
theorem forward_fill_frame (unit interval : String) (today : Date)
    (oracle : List FetchResult) (tf : TFState) :
    (forward_fill_to_today unit interval today oracle tf).next_backfill_to_date
        = tf.next_backfill_to_date ∧
    (forward_fill_to_today unit interval today oracle tf).done_backfill
        = tf.done_backfill := by
  unfold forward_fill_to_today
  cases hm : tf.max_seen_date with
  | none => exact ⟨rfl, rfl⟩
  | some m =>
    dsimp only
    split_ifs
    · exact ⟨rfl, rfl⟩
    · exact forwardLoop_frame unit interval today oracle tf (addDay m)

/-- C6: `done_backfill` is monotonic — a backfill run entered with the flag
already set returns at once with no chunk requested, the flag is never
reset by a backfill or a forward-fill run, and an empty chunk result (or a
floor-reaching plan) is what sets it. -/
theorem done_backfill_monotonic (unit interval : String) (today : Date)
    (oracle rest : List FetchResult) (tf : TFState) :
    (tf.done_backfill = true →
      backfill_timeframe unit interval today oracle tf = (tf, [])) ∧
    ((backfill_timeframe unit interval today oracle tf).1.done_backfill = false →
      tf.done_backfill = false) ∧
    (forward_fill_to_today unit interval today oracle tf).done_backfill
        = tf.done_backfill ∧
    (tf.done_backfill = false →
      Date.ble (planFrom unit interval (backfillTo today tf)) (backfillTo today tf) = true →
      (backfill_timeframe unit interval today (some [] :: rest) tf).1.done_backfill = true) := by
  have hskip : tf.done_backfill = true →
      backfill_timeframe unit interval today oracle tf = (tf, []) := by
    intro h
    unfold backfill_timeframe
    rw [h]
    rfl
  refine ⟨hskip, ?_, (forward_fill_frame unit interval today oracle tf).2, ?_⟩
  · intro h
    cases hd : tf.done_backfill with
    | false => rfl
    | true =>
      rw [hskip hd] at h
      rw [hd] at h
      cases h
  · intro h1 h2
    unfold backfill_timeframe
    rw [h1]
    rw [if_neg (by simp)]
    rw [backfillLoop]
    rw [if_neg (by unfold Date.blt; rw [h2]; simp)]

/-- Witness for C6: a completed daily timeframe is skipped outright, and a
fresh one whose first chunk comes back empty is marked done. -/
theorem done_backfill_monotonic_witness :
    backfill_timeframe "days" "1" ⟨2024, 1, 10⟩ [] tfDone = (tfDone, []) ∧
    (backfill_timeframe "days" "1" ⟨2024, 1, 10⟩ [some []] freshTF).1.done_backfill = true :=
  ⟨(done_backfill_monotonic "days" "1" ⟨2024, 1, 10⟩ [] [] tfDone).1 rfl,
   (done_backfill_monotonic "days" "1" ⟨2024, 1, 10⟩ [some []] [] freshTF).2.2.2
     rfl (by decide)⟩

end Upstox
